import Mathlib

/-!
Shallow embedding of the order/inventory core of the hackathonstore
repository, together with proofs about it.

Two server implementations exist in the repository and both are embedded
here faithfully:

* the Bun server (`src/unnamed/part_005`): namespace `Bun`.  It reserves
  stock at order placement, stores order notes in a `notes` array, and
  returns stock only on a transition into the `"cancelled"` status.
* the Express server (`src/server/config.js`): namespace `Express`.  It
  stores the client cart verbatim (including client-supplied name/price),
  computes `totalPrice` from client prices, does not touch stock at
  placement, and reserves stock when an order is approved.

JavaScript numbers are modelled as `Int` (stock arithmetic in the source
is plain `+=`/`-=` with no clamping, so stock can in principle go
negative); timestamps and generated ids are passed in as parameters.
Side effects on the file system and the push channel are modelled as an
explicit effect trace (`Effect`).
-/

namespace HackathonStore

/-- Catalog item, restricted to the fields the order/inventory core reads
or writes (`id`, `name`, `price`, `stock`); the remaining metadata fields
are never touched by these operations. -/
structure Item where
  id : String
  name : String
  price : Int
  stock : Int
deriving Repr, DecidableEq

/-- A client cart line as consumed by the Bun server: `{id, quantity}`. -/
structure CartLine where
  id : String
  quantity : Int
deriving Repr, DecidableEq

/-- An order item line `{id, name, price, quantity}`.  In the Bun server
these are server-side snapshots; in the Express server they are the
client-supplied cart lines stored verbatim. -/
structure OrderItem where
  id : String
  name : String
  price : Int
  quantity : Int
deriving Repr, DecidableEq

/-- The JavaScript `allItems.find((i) => i.id === id)` lookup: first
catalog entry with the given id. -/
def findItem (items : List Item) (id : String) : Option Item :=
  items.find? (fun i => i.id == id)

/-- Stock of the first catalog entry with the given id, if any. -/
def stockOf (items : List Item) (id : String) : Option Int :=
  (findItem items id).map (·.stock)

/-- One entry of the Bun server's `unavailableItems` list. -/
structure Shortfall where
  id : String
  name : String
  requestedQuantity : Int
  availableStock : Int
deriving Repr, DecidableEq

/-- The body of the Bun `checkOrderStock` loop for a single cart line:
`some` shortfall when the item is missing or `item.stock < quantity`,
mirroring `name: item?.name || cartItem.id` and `availableStock:
item?.stock || 0` (an empty catalog name is falsy in JS and falls back to
the id; `stock || 0` is the identity on integers since only `0` is falsy
and `0 || 0 = 0`). -/
def shortfallOf (items : List Item) (c : CartLine) : Option Shortfall :=
  match findItem items c.id with
  | none => some ⟨c.id, c.id, c.quantity, 0⟩
  | some it =>
      if it.stock < c.quantity then
        some ⟨c.id, if it.name = "" then c.id else it.name, c.quantity, it.stock⟩
      else none

/-- Bun `checkOrderStock`: collects the unavailable lines; the request is
`available` iff this list is empty. -/
def checkOrderStock (items : List Item) (cart : List CartLine) : List Shortfall :=
  cart.filterMap (shortfallOf items)

/-- The JavaScript in-place `item.stock -= q` / `+= q` after
`allItems.find(...)`: adds `δ` to the stock of the first entry whose id
matches, leaving everything else alone (missing id: no change). -/
def adjustFirst (δ : Int) (id : String) : List Item → List Item
  | [] => []
  | it :: rest =>
      if it.id == id then { it with stock := it.stock + δ } :: rest
      else it :: adjustFirst δ id rest

/-- Bun/Express `reserveStock`: for each line, decrement the first
matching item's stock by the line's quantity. -/
def reserveStock (cart : List CartLine) (items : List Item) : List Item :=
  cart.foldl (fun acc c => adjustFirst (-c.quantity) c.id acc) items

/-- Bun/Express `returnStock`: for each line, increment the first
matching item's stock by the line's quantity. -/
def returnStock (cart : List CartLine) (items : List Item) : List Item :=
  cart.foldl (fun acc c => adjustFirst c.quantity c.id acc) items

/-- A note entry of a Bun order (`{text, timestamp}`). -/
structure NoteEntry where
  text : String
  timestamp : Nat
deriving Repr, DecidableEq

/-- A Bun order record.  Note that the Bun server stores NO `totalPrice`
field and keeps a `notes` array rather than a `statusHistory`. -/
structure BunOrder where
  id : String
  username : String
  items : List OrderItem
  status : String
  notes : List NoteEntry
  created : Nat
  updated : Nat
deriving Repr, DecidableEq

/-- The Bun server's mutable state: the catalog, the order map and the
set of order ids that have a push subscription registered. -/
structure BunState where
  allItems : List Item
  orders : List (String × BunOrder)
  subscriptions : List String
deriving Repr, DecidableEq

/-- Result of `POST /orders` on the Bun server.  `validationError` and
`stockError` are both HTTP 400 responses (`"Invalid order data"` and the
out-of-stock body carrying `unavailableItems` respectively); `created`
returns the new order. -/
inductive PostResult where
  | validationError
  | stockError (unavailableItems : List Shortfall)
  | created (order : BunOrder)
deriving Repr, DecidableEq

/-- True exactly on the `created` result. -/
def PostResult.isCreated : PostResult → Bool
  | .created _ => true
  | _ => false

/-- Projection of an order item back to the `{id, quantity}` shape the
Bun cancellation path passes to `returnStock`. -/
def orderItemToCartLine (oi : OrderItem) : CartLine :=
  ⟨oi.id, oi.quantity⟩

/-- JS object lookup `orders[orderId]` on an association list. -/
def lookupOrder {α : Type} (orders : List (String × α)) (id : String) : Option α :=
  (orders.find? (fun p => p.1 == id)).map (·.2)

/-- JS object assignment `orders[orderId] = order`: replace the existing
entry or append a new one. -/
def setOrder {α : Type} (orders : List (String × α)) (id : String) (o : α) :
    List (String × α) :=
  if orders.any (fun p => p.1 == id) then
    orders.map (fun p => if p.1 == id then (p.1, o) else p)
  else orders ++ [(id, o)]

/-- Observable side effects of a request, in order of occurrence:
synchronous file writes of the items/orders mirrors and invocations of
the push-notify collaborator (`sendOrderNotification`). -/
inductive Effect where
  | persistItems
  | persistOrders
  | notify (orderId : String) (status : String) (note : String)
deriving Repr, DecidableEq

/-- Number of dispatcher invocations in an effect trace. -/
def notifyCount (effs : List Effect) : Nat :=
  effs.countP (fun e => match e with | .notify _ _ _ => true | _ => false)

/-- JS truthiness of an optional string field: absent or `""` is falsy. -/
def truthy : Option String → Bool
  | none => false
  | some s => !(s == "")

/-- Result of `PUT /orders/:id`.  `forbidden` is 403, `notFound` 404,
`badStatus` the Express 400 `"Status must be approved or denied"`,
`stockFail` the Express 400 on approving without stock, `ok` the 200
response carrying the updated order. -/
inductive PutResult (α : Type) where
  | forbidden
  | notFound
  | badStatus
  | stockFail
  | ok (order : α)
deriving Repr, DecidableEq

/-- The order carried by an `ok` result, if any. -/
def PutResult.getOk {α : Type} : PutResult α → Option α
  | .ok o => some o
  | _ => none

/-- The body of the Bun order-item map: snapshot the cart line against
the catalog (`name: item?.name || cartItem.id`, `price: item?.price ||
0`; for an existing item, `price || 0` is the identity since only `0` is
falsy and `0 || 0 = 0`, and an empty catalog name falls back to the
id). -/
def snapshotLine (items : List Item) (c : CartLine) : OrderItem :=
  match findItem items c.id with
  | some it => ⟨c.id, if it.name = "" then c.id else it.name, it.price, c.quantity⟩
  | none => ⟨c.id, c.id, 0, c.quantity⟩

namespace Bun

/-- The Bun server's `POST /orders` handler (`src/unnamed/part_005`):
validate `!username || !cart || cart.length === 0`, run
`checkOrderStock`, and on success snapshot each line against the catalog
(`name: item?.name || cartItem.id`, `price: item?.price || 0`), reserve
stock and store the order.  `orderId` stands for the generated UUID and
`now` for `Date.now()`. -/
def placeOrder (st : BunState) (username : String) (cart : Option (List CartLine))
    (orderId : String) (now : Nat) : PostResult × BunState :=
  match cart with
  | none => (.validationError, st)
  | some cartLines =>
    if username = "" ∨ cartLines = [] then (.validationError, st)
    else
      let shortfalls := checkOrderStock st.allItems cartLines
      if shortfalls.isEmpty then
        let newOrder : BunOrder :=
          { id := orderId
            username := username
            items := cartLines.map (snapshotLine st.allItems)
            status := "pending"
            notes := []
            created := now
            updated := now }
        (.created newOrder,
          { st with
              allItems := reserveStock cartLines st.allItems
              orders := setOrder st.orders orderId newOrder })
      else (.stockError shortfalls, st)

/-- The Bun server's `PUT /orders/:id` handler: admin-code gate, order
lookup, then — when `status` is truthy and differs from the current
status — return stock on a transition into `"cancelled"`, overwrite the
status, and call the notify collaborator when a push subscription exists
for the order; independently append a note entry when `note` is truthy;
finally `saveOrders()`.  The effect trace records the file writes and
notify calls in source order. -/
def updateStatus (secret : String) (st : BunState) (orderId : String)
    (adminCode : String) (status note : Option String) (now : Nat) :
    PutResult BunOrder × BunState × List Effect :=
  if adminCode ≠ secret then (.forbidden, st, [])
  else
    match lookupOrder st.orders orderId with
    | none => (.notFound, st, [])
    | some order =>
      let s := status.getD ""
      let doChange : Bool := truthy status && !(s == order.status)
      let returning : Bool := doChange && s == "cancelled" && !(order.status == "cancelled")
      let items' :=
        if returning then returnStock (order.items.map orderItemToCartLine) st.allItems
        else st.allItems
      let eff1 : List Effect := if returning then [.persistItems] else []
      let order1 :=
        if doChange then { order with status := s, updated := now } else order
      let eff2 : List Effect :=
        if doChange && st.subscriptions.contains orderId then
          [.notify orderId s (note.getD "")]
        else []
      let order2 :=
        if truthy note then
          { order1 with notes := order1.notes ++ [⟨note.getD "", now⟩] }
        else order1
      (.ok order2,
        { st with allItems := items', orders := setOrder st.orders orderId order2 },
        eff1 ++ eff2 ++ [.persistOrders])

end Bun

/-- A status-history entry of an Express order (`{status, timestamp,
note}`). -/
structure HistEntry where
  status : String
  timestamp : Nat
  note : String
deriving Repr, DecidableEq

/-- An Express order record (`src/server/config.js`): the `items` field
is the client cart stored verbatim and `totalPrice` is computed from the
client-supplied prices. -/
structure ExOrder where
  id : String
  username : String
  items : List OrderItem
  totalPrice : Int
  status : String
  timestamp : Nat
  statusHistory : List HistEntry
deriving Repr, DecidableEq

/-- The Express server's mutable state. -/
structure ExState where
  allItems : List Item
  orders : List (String × ExOrder)
deriving Repr, DecidableEq

/-- Result of `POST /orders` on the Express server: its out-of-stock 400
response (`"Some items are out of stock"`) carries no shortfall detail,
and success is a 201 with `{orderId, order}`. -/
inductive ExPostResult where
  | validationError
  | stockError
  | created (orderId : String) (order : ExOrder)
deriving Repr, DecidableEq

namespace Express

/-- The Express `checkOrderStock(order)`: `false` as soon as some order
line's item is missing or has `stock < quantity`. -/
def checkOrderStock (items : List Item) (lines : List OrderItem) : Bool :=
  lines.all (fun l =>
    match findItem items l.id with
    | some p => !(p.stock < l.quantity)
    | none => false)

/-- The Express `POST /orders` handler: same validation line as the Bun
server, then the order is built with `items: cart` (client lines
verbatim) and `totalPrice: cart.reduce((sum, item) => sum + item.price *
item.quantity, 0)`; the stock check gates acceptance but NO stock is
reserved at placement. -/
def placeOrder (st : ExState) (username : String) (cart : Option (List OrderItem))
    (orderId : String) (now : Nat) : ExPostResult × ExState :=
  match cart with
  | none => (.validationError, st)
  | some lines =>
    if username = "" ∨ lines = [] then (.validationError, st)
    else
      let order : ExOrder :=
        { id := orderId
          username := username
          items := lines
          totalPrice := lines.foldl (fun sum l => sum + l.price * l.quantity) 0
          status := "pending"
          timestamp := now
          statusHistory := [⟨"pending", now, "Order placed"⟩] }
      if checkOrderStock st.allItems lines then
        (.created orderId order, { st with orders := setOrder st.orders orderId order })
      else (.stockError, st)

/-- The Express `PUT /orders/:id` handler: admin-code gate, order
lookup, 400 unless the status is exactly `"approved"` or `"denied"`, a
re-check of stock before approval, then the status overwrite, a
`statusHistory` push (`note: note || "Order " + status`), `reserveStock`
on approval, `saveOrders()` and finally the notify call (the Express
server notifies unconditionally, after persisting). -/
def updateStatus (secret : String) (st : ExState) (orderId : String)
    (adminCode : String) (status note : Option String) (now : Nat) :
    PutResult ExOrder × ExState × List Effect :=
  if adminCode ≠ secret then (.forbidden, st, [])
  else
    match lookupOrder st.orders orderId with
    | none => (.notFound, st, [])
    | some order =>
      if ¬(status = some "approved" ∨ status = some "denied") then (.badStatus, st, [])
      else
        let s := status.getD ""
        if s = "approved" ∧ checkOrderStock st.allItems order.items = false then
          (.stockFail, st, [])
        else
          let order1 :=
            { order with
                status := s
                statusHistory := order.statusHistory ++
                  [⟨s, now, if truthy note then note.getD "" else "Order " ++ s⟩] }
          let approving : Bool := s == "approved"
          let items' :=
            if approving then
              reserveStock (order1.items.map orderItemToCartLine) st.allItems
            else st.allItems
          let eff1 : List Effect := if approving then [.persistItems] else []
          (.ok order1,
            { st with allItems := items', orders := setOrder st.orders orderId order1 },
            eff1 ++ [.persistOrders, .notify orderId s (note.getD "")])

end Express

/-! ### Lemmas about the stock-adjustment primitive -/

theorem findItem_adjustFirst (δ : Int) (id id' : String) (items : List Item) :
    findItem (adjustFirst δ id items) id' =
      if id' = id then
        (findItem items id).map (fun it => { it with stock := it.stock + δ })
      else findItem items id' := by
  induction items with
  | nil => by_cases hid' : id' = id <;> simp [adjustFirst, findItem, hid']
  | cons h t ih =>
    by_cases hid : h.id = id
    · subst hid
      by_cases hid' : id' = h.id
      · subst hid'
        simp [adjustFirst, findItem, List.find?]
      · have h2 : ¬ h.id = id' := fun e => hid' e.symm
        simp [adjustFirst, findItem, List.find?, hid', h2, beq_false_of_ne h2]
    · by_cases hh' : h.id = id'
      · subst hh'
        simp [adjustFirst, findItem, List.find?, hid]
      · by_cases hid' : id' = id
        · subst hid'
          simp only [findItem] at ih
          simp [adjustFirst, findItem, List.find?, hid, hh', beq_false_of_ne hh', ih]
        · simp only [findItem] at ih
          simp [adjustFirst, findItem, List.find?, hid, hh', beq_false_of_ne hh', hid', ih]

theorem mem_adjustFirst {δ : Int} {id : String} {items : List Item} {it' : Item}
    (h : it' ∈ adjustFirst δ id items) :
    it' ∈ items ∨
      ∃ it, findItem items id = some it ∧ it' = { it with stock := it.stock + δ } := by
  induction items with
  | nil => simp [adjustFirst] at h
  | cons hd t ih =>
    by_cases hid : hd.id = id
    · subst hid
      simp only [adjustFirst, beq_self_eq_true, if_true, List.mem_cons] at h
      rcases h with h | h
      · exact Or.inr ⟨hd, by simp [findItem, List.find?], h⟩
      · exact Or.inl (List.mem_cons_of_mem _ h)
    · simp only [adjustFirst, beq_iff_eq, hid, if_false, List.mem_cons] at h
      rcases h with h | h
      · exact Or.inl (by simp [h])
      · rcases ih h with h' | ⟨it, hit, rfl⟩
        · exact Or.inl (List.mem_cons_of_mem _ h')
        · refine Or.inr ⟨it, ?_, rfl⟩
          simpa [findItem, List.find?, beq_false_of_ne hid] using hit

theorem adjustFirst_comm (δ δ' : Int) (id id' : String) (items : List Item) :
    adjustFirst δ id (adjustFirst δ' id' items) =
      adjustFirst δ' id' (adjustFirst δ id items) := by
  induction items with
  | nil => rfl
  | cons h t ih =>
    by_cases hid : h.id = id
    · subst hid
      by_cases hid' : h.id = id'
      · subst hid'
        simp [adjustFirst, add_right_comm]
      · simp [adjustFirst, hid']
    · by_cases hid' : h.id = id'
      · subst hid'
        simp [adjustFirst, hid]
      · simp [adjustFirst, hid, hid', ih]

theorem adjustFirst_add (δ δ' : Int) (id : String) (items : List Item) :
    adjustFirst δ' id (adjustFirst δ id items) = adjustFirst (δ + δ') id items := by
  induction items with
  | nil => rfl
  | cons h t ih =>
    by_cases hid : h.id = id
    · subst hid
      simp [adjustFirst, add_assoc]
    · simp [adjustFirst, hid, ih]

theorem adjustFirst_zero (id : String) (items : List Item) :
    adjustFirst 0 id items = items := by
  induction items with
  | nil => rfl
  | cons h t ih =>
    by_cases hid : h.id = id
    · subst hid
      simp [adjustFirst]
    · simp [adjustFirst, hid, ih]

theorem adjustFirst_foldl (g : CartLine → Int) (cart : List CartLine) (δ : Int)
    (id : String) (items : List Item) :
    adjustFirst δ id (cart.foldl (fun acc c => adjustFirst (g c) c.id acc) items) =
      cart.foldl (fun acc c => adjustFirst (g c) c.id acc) (adjustFirst δ id items) := by
  induction cart generalizing items with
  | nil => rfl
  | cons c cs ih => simp [List.foldl_cons, ih, adjustFirst_comm]

/-! ### Lemmas about reserve/return and the stock check -/

theorem reserveStock_cons (c : CartLine) (cs : List CartLine) (items : List Item) :
    reserveStock (c :: cs) items =
      reserveStock cs (adjustFirst (-c.quantity) c.id items) := rfl

theorem returnStock_cons (c : CartLine) (cs : List CartLine) (items : List Item) :
    returnStock (c :: cs) items =
      returnStock cs (adjustFirst c.quantity c.id items) := rfl

theorem adjustFirst_reserveStock (δ : Int) (id : String) (cart : List CartLine)
    (items : List Item) :
    adjustFirst δ id (reserveStock cart items) =
      reserveStock cart (adjustFirst δ id items) :=
  adjustFirst_foldl (fun c => -c.quantity) cart δ id items

theorem shortfallOf_eq_none_iff (items : List Item) (c : CartLine) :
    shortfallOf items c = none ↔
      ∃ it, findItem items c.id = some it ∧ c.quantity ≤ it.stock := by
  unfold shortfallOf
  cases h : findItem items c.id with
  | none => simp
  | some it =>
    by_cases hs : it.stock < c.quantity
    · simp only [hs, if_true]
      constructor
      · intro he
        cases he
      · rintro ⟨it', he, hle⟩
        cases he
        omega
    · simp only [hs, if_false]
      simp
      omega

theorem checkOrderStock_isEmpty_iff (items : List Item) (cart : List CartLine) :
    (checkOrderStock items cart).isEmpty = true ↔
      ∀ c ∈ cart, shortfallOf items c = none := by
  rw [List.isEmpty_iff, checkOrderStock, List.filterMap_eq_nil_iff]

theorem findItem_foldl_adjust (g : CartLine → Int) (cart : List CartLine)
    (items : List Item) (id : String) (h : ∀ c ∈ cart, c.id ≠ id) :
    findItem (cart.foldl (fun acc c => adjustFirst (g c) c.id acc) items) id =
      findItem items id := by
  induction cart generalizing items with
  | nil => rfl
  | cons c cs ih =>
    simp only [List.foldl_cons]
    rw [ih _ (fun x hx => h x (List.mem_cons_of_mem _ hx)), findItem_adjustFirst,
        if_neg (fun e => h c (List.mem_cons_self _ _) e.symm)]

theorem findItem_reserveStock_not_mem (cart : List CartLine) (items : List Item)
    (id : String) (h : ∀ c ∈ cart, c.id ≠ id) :
    findItem (reserveStock cart items) id = findItem items id :=
  findItem_foldl_adjust (fun c => -c.quantity) cart items id h

theorem findItem_reserveStock_mem (cart : List CartLine) (items : List Item)
    {c : CartLine} (hnd : (cart.map (·.id)).Nodup) (hc : c ∈ cart) :
    findItem (reserveStock cart items) c.id =
      (findItem items c.id).map
        (fun it => { it with stock := it.stock - c.quantity }) := by
  induction cart generalizing items with
  | nil => cases hc
  | cons d ds ih =>
    simp only [List.map_cons, List.nodup_cons] at hnd
    rcases List.mem_cons.mp hc with rfl | hc'
    · rw [reserveStock_cons,
        findItem_reserveStock_not_mem _ _ _
          (fun x hx e => hnd.1 (by rw [← e]; exact List.mem_map_of_mem _ hx)),
        findItem_adjustFirst, if_pos rfl]
      simp [sub_eq_add_neg]
    · have hne : c.id ≠ d.id := fun e =>
        hnd.1 (by rw [← e]; exact List.mem_map_of_mem _ hc')
      rw [reserveStock_cons, ih _ hnd.2 hc', findItem_adjustFirst, if_neg hne]

/-- Reserving stock for a cart whose line ids are pairwise distinct and
whose per-line availability pre-check passed keeps every catalog stock
nonnegative. -/
theorem reserveStock_nonneg (cart : List CartLine) (items : List Item)
    (hnd : (cart.map (·.id)).Nodup)
    (hchk : ∀ c ∈ cart, shortfallOf items c = none)
    (hpos : ∀ it ∈ items, 0 ≤ it.stock) :
    ∀ it ∈ reserveStock cart items, 0 ≤ it.stock := by
  induction cart generalizing items with
  | nil => exact hpos
  | cons c cs ih =>
    simp only [List.map_cons, List.nodup_cons] at hnd
    obtain ⟨it0, hfind, hle⟩ := (shortfallOf_eq_none_iff items c).mp
      (hchk c (List.mem_cons_self _ _))
    rw [reserveStock_cons]
    refine ih _ hnd.2 ?_ ?_
    · intro d hd
      obtain ⟨itd, hfd, hled⟩ := (shortfallOf_eq_none_iff items d).mp
        (hchk d (List.mem_cons_of_mem _ hd))
      refine (shortfallOf_eq_none_iff _ d).mpr ⟨itd, ?_, hled⟩
      rw [findItem_adjustFirst,
        if_neg (fun e => hnd.1 (by rw [← e]; exact List.mem_map_of_mem _ hd))]
      exact hfd
    · intro it hit
      rcases mem_adjustFirst hit with hmem | ⟨it1, hit1, rfl⟩
      · exact hpos it hmem
      · rw [hfind] at hit1
        obtain rfl : it0 = it1 := by injection hit1
        simp only []
        omega

/-- Inversion principle for a successful Bun `POST /orders`: success
implies the validation passed, the stock pre-check passed, the stored
order is the catalog snapshot of the cart, and the new catalog is the
reserved one. -/
theorem bun_placeOrder_created {st : BunState} {u : String}
    {cart : Option (List CartLine)} {oid : String} {now : Nat}
    {o : BunOrder} {st' : BunState}
    (h : Bun.placeOrder st u cart oid now = (.created o, st')) :
    ∃ lines, cart = some lines ∧ u ≠ "" ∧ lines ≠ [] ∧
      (∀ c ∈ lines, shortfallOf st.allItems c = none) ∧
      o = { id := oid, username := u,
            items := lines.map (snapshotLine st.allItems),
            status := "pending", notes := [], created := now, updated := now } ∧
      st' = { st with allItems := reserveStock lines st.allItems,
                      orders := setOrder st.orders oid o } := by
  cases cart with
  | none => exact absurd h (by simp [Bun.placeOrder])
  | some lines =>
    by_cases hval : u = "" ∨ lines = []
    · rw [Bun.placeOrder] at h
      simp only [if_pos hval] at h
      exact absurd h (by simp)
    · by_cases hchk : (checkOrderStock st.allItems lines).isEmpty = true
      · rw [Bun.placeOrder] at h
        simp only [if_neg hval, hchk, if_true] at h
        push_neg at hval
        injection h with h1 h2
        injection h1 with h1
        refine ⟨lines, rfl, hval.1, hval.2,
          (checkOrderStock_isEmpty_iff _ _).mp hchk, h1.symm, ?_⟩
        rw [← h2, h1]
      · rw [Bun.placeOrder] at h
        simp only [if_neg hval, hchk, if_false] at h
        exact absurd h (by simp)

/-- Returning stock with nonnegative quantities never drives a
nonnegative catalog stock negative. -/
theorem returnStock_nonneg (cart : List CartLine) (items : List Item)
    (hq : ∀ c ∈ cart, 0 ≤ c.quantity)
    (hpos : ∀ it ∈ items, 0 ≤ it.stock) :
    ∀ it ∈ returnStock cart items, 0 ≤ it.stock := by
  induction cart generalizing items with
  | nil => exact hpos
  | cons c cs ih =>
    rw [returnStock_cons]
    refine ih _ (fun d hd => hq d (List.mem_cons_of_mem _ hd)) ?_
    intro it hit
    rcases mem_adjustFirst hit with hmem | ⟨it1, hit1, rfl⟩
    · exact hpos it hmem
    · have h1 : 0 ≤ it1.stock :=
        hpos it1 (List.mem_of_find?_eq_some (by simpa [findItem] using hit1))
    -- the adjusted item had nonnegative stock and receives a nonnegative delta
      have h2 : 0 ≤ c.quantity := hq c (List.mem_cons_self _ _)
      simp only []
      omega

/-- The Bun snapshot keeps each line's `id` and `quantity` unchanged, so
projecting the order's item snapshot back to `{id, quantity}` lines
recovers the original cart exactly. -/
theorem snapshotLine_roundtrip (items : List Item) (cart : List CartLine) :
    (cart.map (snapshotLine items)).map orderItemToCartLine = cart := by
  rw [List.map_map]
  have h : ∀ c : CartLine, orderItemToCartLine (snapshotLine items c) = c := by
    intro c
    unfold snapshotLine orderItemToCartLine
    cases findItem items c.id <;> rfl
  simp only [Function.comp_def, h, List.map_id']

/-- Inversion principle for a successful Express `POST /orders`: success
implies the validation and stock check passed, the stored order is the
client cart verbatim with a client-priced total, and the catalog is
untouched. -/
theorem express_placeOrder_created {st : ExState} {u : String}
    {cart : Option (List OrderItem)} {oid : String} {now : Nat}
    {rid : String} {o : ExOrder} {st' : ExState}
    (h : Express.placeOrder st u cart oid now = (.created rid o, st')) :
    ∃ lines, cart = some lines ∧ u ≠ "" ∧ lines ≠ [] ∧
      Express.checkOrderStock st.allItems lines = true ∧ rid = oid ∧
      o = { id := oid, username := u, items := lines,
            totalPrice := lines.foldl (fun sum l => sum + l.price * l.quantity) 0,
            status := "pending", timestamp := now,
            statusHistory := [⟨"pending", now, "Order placed"⟩] } ∧
      st' = { st with orders := setOrder st.orders oid o } := by
  cases cart with
  | none => exact absurd h (by simp [Express.placeOrder])
  | some lines =>
    by_cases hval : u = "" ∨ lines = []
    · rw [Express.placeOrder] at h
      simp only [if_pos hval] at h
      exact absurd h (by simp)
    · by_cases hchk : Express.checkOrderStock st.allItems lines = true
      · rw [Express.placeOrder] at h
        simp only [if_neg hval, hchk, if_true] at h
        push_neg at hval
        injection h with h1 h2
        injection h1 with hrid ho
        refine ⟨lines, rfl, hval.1, hval.2, hchk, hrid.symm, ho.symm, ?_⟩
        rw [← h2, ho]
      · rw [Express.placeOrder] at h
        simp only [if_neg hval, hchk, if_false] at h
        exact absurd h (by simp)

/-- The Bun server's `release` is the exact inverse of its `reserve`:
running `reserveStock` then `returnStock` on the same cart lines restores
the catalog exactly, for every cart and every catalog. -/
theorem returnStock_reserveStock (cart : List CartLine) (items : List Item) :
    returnStock cart (reserveStock cart items) = items := by
  induction cart generalizing items with
  | nil => rfl
  | cons c cs ih =>
    rw [reserveStock_cons, returnStock_cons, adjustFirst_reserveStock,
      adjustFirst_add, neg_add_cancel, adjustFirst_zero, ih]

/-! ### Claim theorems -/

/-- C6: `returnStock` (release) is the exact inverse of `reserveStock`
(reserve): for every list of cart lines and every catalog, reserving and
then releasing the same lines restores every item's stock to its initial
value; moreover the Bun order snapshot keeps ids and quantities in
lockstep with the cart, so releasing the order's item snapshot (as the
cancellation path does) restores exactly the quantities that were taken
for the order. -/
theorem C6_theorem (cart : List CartLine) (items : List Item) :
    returnStock cart (reserveStock cart items) = items ∧
    returnStock ((cart.map (snapshotLine items)).map orderItemToCartLine)
        (reserveStock cart items) = items := by
  constructor
  · exact returnStock_reserveStock cart items
  · rw [snapshotLine_roundtrip]
    exact returnStock_reserveStock cart items

/-- C5: an `updateStatus` call whose supplied adminCode differs from the
configured secret returns `Forbidden` (403), mutates no state and
produces no side effect, in both server implementations, regardless of
the requested status. -/
theorem C5_theorem (secret : String) (st : BunState) (orderId adminCode : String)
    (status note : Option String) (now : Nat)
    (est : ExState) (eOrderId eAdminCode : String) (estatus enote : Option String)
    (enow : Nat)
    (h : adminCode ≠ secret) (eh : eAdminCode ≠ secret) :
    Bun.updateStatus secret st orderId adminCode status note now =
        (.forbidden, st, []) ∧
    Express.updateStatus secret est eOrderId eAdminCode estatus enote enow =
        (.forbidden, est, []) := by
  constructor
  · rw [Bun.updateStatus, if_pos h]
  · rw [Express.updateStatus, if_pos eh]

/-- Witness for C5 at a concrete state and a concretely wrong admin
code. -/
theorem C5_theorem_witness :
    ("wrong" : String) ≠ "adm" ∧
    (Bun.updateStatus "adm"
        ⟨[], [("o1", ⟨"o1", "alice", [], "pending", [], 0, 0⟩)], []⟩
        "o1" "wrong" (some "approved") none 5 =
      (.forbidden, ⟨[], [("o1", ⟨"o1", "alice", [], "pending", [], 0, 0⟩)], []⟩, []) ∧
    Express.updateStatus "adm" ⟨[], []⟩ "o1" "wrong" (some "approved") none 5 =
      (.forbidden, ⟨[], []⟩, [])) :=
  ⟨by decide,
    C5_theorem "adm" ⟨[], [("o1", ⟨"o1", "alice", [], "pending", [], 0, 0⟩)], []⟩
      "o1" "wrong" (some "approved") none 5
      ⟨[], []⟩ "o1" "wrong" (some "approved") none 5 (by decide) (by decide)⟩

/-- C10: the Bun `updateStatus` touches item stock only on a transition
into `"cancelled"`: for every request whose supplied status is any
non-cancelled value (`"approved"`, `"denied"`, `"pending"`, or anything
else), every item's stock is left unchanged — in particular, denying an
order does not return its reserved stock. -/
theorem C10_theorem (secret : String) (st : BunState) (orderId adminCode : String)
    (s : String) (note : Option String) (now : Nat) (hs : s ≠ "cancelled") :
    (Bun.updateStatus secret st orderId adminCode (some s) note now).2.1.allItems =
      st.allItems := by
  rw [Bun.updateStatus]
  by_cases hadm : adminCode ≠ secret
  · rw [if_pos hadm]
  · rw [if_neg hadm]
    cases hlk : lookupOrder st.orders orderId with
    | none => rfl
    | some order => simp [beq_false_of_ne hs]

/-- Witness for C10: denying a pending order leaves the catalog exactly
as it was (the stock reserved at placement is never returned). -/
theorem C10_theorem_witness :
    ("denied" : String) ≠ "cancelled" ∧
    (Bun.updateStatus "adm"
        ⟨[⟨"A", "Widget", 10, 2⟩],
         [("o1", ⟨"o1", "alice", [⟨"A", "Widget", 10, 3⟩], "pending", [], 0, 0⟩)],
         []⟩ "o1" "adm" (some "denied") none 5).2.1.allItems =
      [⟨"A", "Widget", 10, 2⟩] :=
  ⟨by decide,
    C10_theorem "adm"
      ⟨[⟨"A", "Widget", 10, 2⟩],
       [("o1", ⟨"o1", "alice", [⟨"A", "Widget", 10, 3⟩], "pending", [], 0, 0⟩)],
       []⟩ "o1" "adm" "denied" none 5 (by decide)⟩

/-- C1 counterexample: the claim fails as stated.  A cart that lists the
same item twice passes `checkOrderStock` (each line is checked against
the same unmodified stock) and is then reserved line by line, driving the
stock negative: item `"A"` with stock `5` and cart
`[{A,3},{A,3}]` yields a successful order and stock `-1`. -/
theorem C1_counterexample :
    (Bun.placeOrder ⟨[⟨"A", "Widget", 10, 5⟩], [], []⟩ "alice"
        (some [⟨"A", 3⟩, ⟨"A", 3⟩]) "o1" 0).1.isCreated = true ∧
    stockOf (Bun.placeOrder ⟨[⟨"A", "Widget", 10, 5⟩], [], []⟩ "alice"
        (some [⟨"A", 3⟩, ⟨"A", 3⟩]) "o1" 0).2.allItems "A" = some (-1) := by
  decide

/-- C1 (amended): for carts whose item ids are pairwise distinct, a
successful Bun `placeOrder` keeps every item's stock nonnegative (the
decrement is guarded by the preceding `checkOrderStock`), and any
subsequent release with nonnegative quantities keeps it nonnegative as
well. -/
theorem C1_theorem (st : BunState) (u : String) (lines cart2 : List CartLine)
    (oid : String) (now : Nat) (o : BunOrder) (st' : BunState)
    (hnd : (lines.map (·.id)).Nodup)
    (hpos : st.allItems.all (fun it => decide (0 ≤ it.stock)) = true)
    (hq2 : cart2.all (fun c => decide (0 ≤ c.quantity)) = true)
    (h : Bun.placeOrder st u (some lines) oid now = (.created o, st')) :
    st'.allItems.all (fun it => decide (0 ≤ it.stock)) = true ∧
    (returnStock cart2 st'.allItems).all (fun it => decide (0 ≤ it.stock)) = true := by
  obtain ⟨lines', heq, -, -, hchk, -, hst⟩ := bun_placeOrder_created h
  injection heq with heq
  subst heq
  subst hst
  have hpos' : ∀ it ∈ st.allItems, 0 ≤ it.stock := by
    intro it hit
    simpa using List.all_eq_true.mp hpos it hit
  have hres : ∀ it ∈ reserveStock lines st.allItems, 0 ≤ it.stock :=
    reserveStock_nonneg lines st.allItems hnd hchk hpos'
  constructor
  · simp only [List.all_eq_true]
    intro it hit
    simpa using hres it hit
  · simp only [List.all_eq_true]
    intro it hit
    have hq2' : ∀ c ∈ cart2, 0 ≤ c.quantity := by
      intro d hd
      simpa using List.all_eq_true.mp hq2 d hd
    simpa using returnStock_nonneg cart2 _ hq2' hres it hit

/-- Witness for C1 at the spec scenario: stock 5, one line of quantity 3;
after placement all stocks are nonnegative, and so they remain after a
release of the same line. -/
theorem C1_theorem_witness :
    (([⟨"A", 3⟩] : List CartLine).map (·.id)).Nodup ∧
    ([⟨"A", "Widget", 10, 5⟩] : List Item).all (fun it => decide (0 ≤ it.stock)) = true ∧
    ((Bun.placeOrder ⟨[⟨"A", "Widget", 10, 5⟩], [], []⟩ "alice"
          (some [⟨"A", 3⟩]) "o1" 0).2.allItems.all
        (fun it => decide (0 ≤ it.stock)) = true ∧
      (returnStock [⟨"A", 3⟩]
          (Bun.placeOrder ⟨[⟨"A", "Widget", 10, 5⟩], [], []⟩ "alice"
            (some [⟨"A", 3⟩]) "o1" 0).2.allItems).all
        (fun it => decide (0 ≤ it.stock)) = true) :=
  ⟨by decide, by decide,
    C1_theorem ⟨[⟨"A", "Widget", 10, 5⟩], [], []⟩ "alice" [⟨"A", 3⟩] [⟨"A", 3⟩]
      "o1" 0 _ _ (by decide) (by decide) (by decide) rfl⟩

/-- C8 counterexample: a cart line with quantity `0` (hence not
`quantity > 0`) passes validation in both implementations and the
request even succeeds, although the claim requires a `ValidationError`
for any non-positive quantity. -/
theorem C8_counterexample :
    (Bun.placeOrder ⟨[⟨"A", "Widget", 10, 5⟩], [], []⟩ "alice"
        (some [⟨"A", 0⟩]) "o1" 0).1.isCreated = true ∧
    (Express.placeOrder ⟨[⟨"A", "Widget", 10, 5⟩], []⟩ "alice"
        (some [⟨"A", "Widget", 10, 0⟩]) "o1" 0).1 ≠ .validationError := by
  decide

/-- C8 (amended): both implementations return `ValidationError` (400)
exactly when the username is missing/empty or the cart is missing, not
an array, or empty; cart line quantities are NOT validated, so any
request passing those three checks proceeds past validation. -/
theorem C8_theorem (st : BunState) (u : String) (cart : Option (List CartLine))
    (oid : String) (now : Nat)
    (est : ExState) (eu : String) (ecart : Option (List OrderItem))
    (eoid : String) (enow : Nat) :
    ((Bun.placeOrder st u cart oid now).1 = .validationError ↔
      (u = "" ∨ cart = none ∨ cart = some [])) ∧
    ((Express.placeOrder est eu ecart eoid enow).1 = .validationError ↔
      (eu = "" ∨ ecart = none ∨ ecart = some [])) := by
  constructor
  · cases cart with
    | none => simp [Bun.placeOrder]
    | some lines =>
      by_cases hval : u = "" ∨ lines = []
      · rw [Bun.placeOrder]
        simp only [if_pos hval]
        simpa using hval
      · rw [Bun.placeOrder]
        simp only [if_neg hval]
        push_neg at hval
        by_cases hchk : (checkOrderStock st.allItems lines).isEmpty = true
        · simp [hchk, hval.1, hval.2]
        · simp [hchk, hval.1, hval.2]
  · cases ecart with
    | none => simp [Express.placeOrder]
    | some lines =>
      by_cases hval : eu = "" ∨ lines = []
      · rw [Express.placeOrder]
        simp only [if_pos hval]
        simpa using hval
      · rw [Express.placeOrder]
        simp only [if_neg hval]
        push_neg at hval
        by_cases hchk : Express.checkOrderStock est.allItems lines = true
        · simp [hchk, hval.1, hval.2]
        · simp [hchk, hval.1, hval.2]

/-- C3 counterexample: the claim fails as stated on the Express
implementation, whose out-of-stock 400 response carries no shortfall
detail at all — the `stockError` result is a bare constructor mirroring
the fixed body `{error: "Some items are out of stock"}` — although the
claim requires the 400 to carry the shortfall detail.  (The state is
indeed left unchanged.) -/
theorem C3_counterexample :
    Express.placeOrder ⟨[⟨"A", "Widget", 10, 2⟩], []⟩ "alice"
        (some [⟨"A", "Widget", 10, 3⟩]) "o1" 0 =
      (.stockError, ⟨[⟨"A", "Widget", 10, 2⟩], []⟩) := by
  decide

/-- C3 (amended): a placeOrder request containing a line whose quantity
exceeds the item's current stock fails with the out-of-stock 400
response and the whole state — in particular every item's stock — is
left unchanged, in both implementations; only the Bun response carries
the shortfall detail (`unavailableItems` contains the line's id,
requested quantity and available stock), while the Express response
carries a fixed message with no detail. -/
theorem C3_theorem (st : BunState) (u : String) (lines : List CartLine)
    (oid : String) (now : Nat) (c : CartLine) (it : Item)
    (est : ExState) (eu : String) (elines : List OrderItem)
    (eoid : String) (enow : Nat) (el : OrderItem) (eit : Item)
    (hu : u ≠ "") (hc : c ∈ lines)
    (hfind : findItem st.allItems c.id = some it)
    (hlt : it.stock < c.quantity)
    (heu : eu ≠ "") (hel : el ∈ elines)
    (hefind : findItem est.allItems el.id = some eit)
    (helt : eit.stock < el.quantity) :
    (Bun.placeOrder st u (some lines) oid now =
      (.stockError (checkOrderStock st.allItems lines), st) ∧
    (⟨c.id, if it.name = "" then c.id else it.name, c.quantity, it.stock⟩ : Shortfall) ∈
      checkOrderStock st.allItems lines) ∧
    Express.placeOrder est eu (some elines) eoid enow = (.stockError, est) := by
  have hsf : shortfallOf st.allItems c =
      some ⟨c.id, if it.name = "" then c.id else it.name, c.quantity, it.stock⟩ := by
    unfold shortfallOf
    rw [hfind]
    simp [hlt]
  have hmem :
      (⟨c.id, if it.name = "" then c.id else it.name, c.quantity, it.stock⟩ :
        Shortfall) ∈ checkOrderStock st.allItems lines :=
    List.mem_filterMap.mpr ⟨c, hc, hsf⟩
  have hne : ¬ (checkOrderStock st.allItems lines).isEmpty = true := by
    intro he
    rw [List.isEmpty_iff] at he
    rw [he] at hmem
    cases hmem
  refine ⟨⟨?_, hmem⟩, ?_⟩
  · rw [Bun.placeOrder]
    rw [if_neg (by push_neg; exact ⟨hu, List.ne_nil_of_mem hc⟩), if_neg hne]
  · have hechk : ¬ Express.checkOrderStock est.allItems elines = true := by
      intro hall
      have := List.all_eq_true.mp hall el hel
      rw [hefind] at this
      simp [helt] at this
    rw [Express.placeOrder]
    rw [if_neg (by push_neg; exact ⟨heu, List.ne_nil_of_mem hel⟩), if_neg hechk]

/-- Witness for C3 at the spec scenario: cart `[{A,3}]` against stock 2
yields the 400 with shortfall `{A, requested 3, available 2}` on the Bun
server, the bare out-of-stock 400 on the Express server, and both states
are left unchanged. -/
theorem C3_theorem_witness :
    ("alice" : String) ≠ "" ∧
    (⟨"A", 3⟩ : CartLine) ∈ ([⟨"A", 3⟩] : List CartLine) ∧
    findItem [⟨"A", "Widget", 10, 2⟩] "A" = some ⟨"A", "Widget", 10, 2⟩ ∧
    (2 : Int) < 3 ∧
    ((Bun.placeOrder ⟨[⟨"A", "Widget", 10, 2⟩], [], []⟩ "alice"
          (some [⟨"A", 3⟩]) "o1" 0 =
        (.stockError (checkOrderStock [⟨"A", "Widget", 10, 2⟩] [⟨"A", 3⟩]),
          ⟨[⟨"A", "Widget", 10, 2⟩], [], []⟩) ∧
      (⟨"A", "Widget", 3, 2⟩ : Shortfall) ∈
        checkOrderStock [⟨"A", "Widget", 10, 2⟩] [⟨"A", 3⟩]) ∧
      Express.placeOrder ⟨[⟨"B", "Gadget", 4, 1⟩], []⟩ "bob"
          (some [⟨"B", "Gadget", 4, 2⟩]) "o2" 0 =
        (.stockError, ⟨[⟨"B", "Gadget", 4, 1⟩], []⟩)) :=
  ⟨by decide, by decide, by decide, by decide,
    C3_theorem ⟨[⟨"A", "Widget", 10, 2⟩], [], []⟩ "alice" [⟨"A", 3⟩] "o1" 0
      ⟨"A", 3⟩ ⟨"A", "Widget", 10, 2⟩
      ⟨[⟨"B", "Gadget", 4, 1⟩], []⟩ "bob" [⟨"B", "Gadget", 4, 2⟩] "o2" 0
      ⟨"B", "Gadget", 4, 2⟩ ⟨"B", "Gadget", 4, 1⟩
      (by decide) (by decide) (by decide) (by decide)
      (by decide) (by decide) (by decide) (by decide)⟩

/-- C2 counterexample: the claim fails as stated.  In the Express
implementation a valid order against catalog item `"A"` (price 10, stock
5) with a client-supplied price of `0` succeeds, its `totalPrice` is `0`
(client price times quantity, not the catalog snapshot price `10 × 2 =
20`), and the item's stock stays `5` instead of being decremented to
`3`. -/
theorem C2_counterexample :
    (Express.placeOrder ⟨[⟨"A", "Widget", 10, 5⟩], []⟩ "alice"
        (some [⟨"A", "Widget", 0, 2⟩]) "o1" 7).1 =
      .created "o1"
        { id := "o1", username := "alice",
          items := [⟨"A", "Widget", 0, 2⟩],
          totalPrice := 0, status := "pending", timestamp := 7,
          statusHistory := [⟨"pending", 7, "Order placed"⟩] } ∧
    (Express.placeOrder ⟨[⟨"A", "Widget", 10, 5⟩], []⟩ "alice"
        (some [⟨"A", "Widget", 0, 2⟩]) "o1" 7).2.allItems =
      [⟨"A", "Widget", 10, 5⟩] := by
  decide

/-- C2 (amended): in the Bun implementation a successful `placeOrder`
decrements each referenced item's stock by exactly the requested
quantity (for carts with pairwise-distinct item ids); the Bun order
stores no total at all, while in the Express implementation a successful
`placeOrder` leaves every item's stock unchanged (stock is reserved only
at approval) and `totalPrice` is the sum of the client-supplied price
times quantity. -/
theorem C2_theorem (st : BunState) (u : String) (lines : List CartLine)
    (oid : String) (now : Nat) (o : BunOrder) (st' : BunState)
    (c : CartLine) (it : Item)
    (est : ExState) (eu : String) (elines : List OrderItem) (eoid : String)
    (enow : Nat) (erid : String) (eo : ExOrder) (est' : ExState)
    (hnd : (lines.map (·.id)).Nodup) (hc : c ∈ lines)
    (hfind : findItem st.allItems c.id = some it)
    (h : Bun.placeOrder st u (some lines) oid now = (.created o, st'))
    (eh : Express.placeOrder est eu (some elines) eoid enow =
      (.created erid eo, est')) :
    stockOf st'.allItems c.id = some (it.stock - c.quantity) ∧
    est'.allItems = est.allItems ∧
    eo.totalPrice = elines.foldl (fun sum l => sum + l.price * l.quantity) 0 := by
  obtain ⟨lines', heq, -, -, -, -, hst⟩ := bun_placeOrder_created h
  injection heq with heq
  subst heq
  subst hst
  obtain ⟨elines', eheq, -, -, -, -, heo, hest⟩ := express_placeOrder_created eh
  injection eheq with eheq
  subst eheq
  subst hest
  refine ⟨?_, rfl, ?_⟩
  · show stockOf (reserveStock lines st.allItems) c.id = _
    rw [stockOf, findItem_reserveStock_mem lines st.allItems hnd hc, hfind]
    rfl
  · rw [heo]

/-- Witness for C2: Bun decrements stock 5 to 2 for quantity 3; Express
leaves the stock untouched and totals the client-priced lines (7 × 2 =
14). -/
theorem C2_theorem_witness :
    (([⟨"A", 3⟩] : List CartLine).map (·.id)).Nodup ∧
    (⟨"A", 3⟩ : CartLine) ∈ ([⟨"A", 3⟩] : List CartLine) ∧
    findItem [⟨"A", "Widget", 10, 5⟩] "A" = some ⟨"A", "Widget", 10, 5⟩ ∧
    (stockOf (⟨[⟨"A", "Widget", 10, 2⟩],
        [("o1", ⟨"o1", "alice", [⟨"A", "Widget", 10, 3⟩], "pending", [], 0, 0⟩)],
        []⟩ : BunState).allItems "A" = some ((5 : Int) - 3) ∧
      (⟨[⟨"B", "Gadget", 4, 9⟩],
        [("o2", ⟨"o2", "bob", [⟨"B", "Gadget", 7, 2⟩], 14, "pending", 1,
          [⟨"pending", 1, "Order placed"⟩]⟩)]⟩ : ExState).allItems =
        (⟨[⟨"B", "Gadget", 4, 9⟩], []⟩ : ExState).allItems ∧
      (⟨"o2", "bob", [⟨"B", "Gadget", 7, 2⟩], 14, "pending", 1,
        [⟨"pending", 1, "Order placed"⟩]⟩ : ExOrder).totalPrice =
        ([⟨"B", "Gadget", 7, 2⟩] : List OrderItem).foldl
          (fun sum l => sum + l.price * l.quantity) 0) :=
  ⟨by decide, by decide, by decide,
    C2_theorem ⟨[⟨"A", "Widget", 10, 5⟩], [], []⟩ "alice" [⟨"A", 3⟩] "o1" 0
      ⟨"o1", "alice", [⟨"A", "Widget", 10, 3⟩], "pending", [], 0, 0⟩
      ⟨[⟨"A", "Widget", 10, 2⟩],
        [("o1", ⟨"o1", "alice", [⟨"A", "Widget", 10, 3⟩], "pending", [], 0, 0⟩)], []⟩
      ⟨"A", 3⟩ ⟨"A", "Widget", 10, 5⟩
      ⟨[⟨"B", "Gadget", 4, 9⟩], []⟩ "bob" [⟨"B", "Gadget", 7, 2⟩] "o2" 1 "o2"
      ⟨"o2", "bob", [⟨"B", "Gadget", 7, 2⟩], 14, "pending", 1,
        [⟨"pending", 1, "Order placed"⟩]⟩
      ⟨[⟨"B", "Gadget", 4, 9⟩],
        [("o2", ⟨"o2", "bob", [⟨"B", "Gadget", 7, 2⟩], 14, "pending", 1,
          [⟨"pending", 1, "Order placed"⟩]⟩)]⟩
      (by decide) (by decide) (by decide) (by decide) (by decide)⟩

/-- C7 counterexample: the claim fails as stated.  The Express
implementation stores the client cart verbatim: against catalog item
`"A"` named `"Widget"` with price `10`, a cart line carrying a
client-supplied name `"Bogus"` and price `999` is stored unchanged in
the order (and priced into its total). -/
theorem C7_counterexample :
    (Express.placeOrder ⟨[⟨"A", "Widget", 10, 5⟩], []⟩ "alice"
        (some [⟨"A", "Bogus", 999, 1⟩]) "o1" 0).1 =
      .created "o1"
        { id := "o1", username := "alice",
          items := [⟨"A", "Bogus", 999, 1⟩],
          totalPrice := 999, status := "pending", timestamp := 0,
          statusHistory := [⟨"pending", 0, "Order placed"⟩] } := by
  decide

/-- C7 (amended): in the Bun implementation every successful order's
item lines carry the name and price of the Catalog Store's current entry
for that id (a server-side snapshot; provided catalog names are
non-empty, since an empty name would fall back to the id via JS `||`);
the Express implementation instead stores the client-supplied lines
verbatim. -/
theorem C7_theorem (st : BunState) (u : String) (lines : List CartLine)
    (oid : String) (now : Nat) (o : BunOrder) (st' : BunState)
    (hnames : st.allItems.all (fun it => !(it.name == "")) = true)
    (h : Bun.placeOrder st u (some lines) oid now = (.created o, st')) :
    o.items.all (fun l =>
      (findItem st.allItems l.id).any
        (fun it => l.name == it.name && l.price == it.price)) = true := by
  obtain ⟨lines', heq, -, -, hchk, ho, -⟩ := bun_placeOrder_created h
  injection heq with heq
  subst heq
  subst ho
  simp only [List.all_eq_true]
  intro l hl
  rcases List.mem_map.mp hl with ⟨cl, hcl, rfl⟩
  obtain ⟨itc, hfindc, -⟩ := (shortfallOf_eq_none_iff _ _).mp (hchk cl hcl)
  have hname : ¬ itc.name = "" := by
    have hmem : itc ∈ st.allItems :=
      List.mem_of_find?_eq_some (by simpa [findItem] using hfindc)
    simpa using List.all_eq_true.mp hnames itc hmem
  unfold snapshotLine
  rw [hfindc]
  simp [hfindc, hname]

/-- Witness for C7: the Bun order stores catalog name `"Widget"` and
price `10` for item `"A"` even though the client only sent an id and a
quantity. -/
theorem C7_theorem_witness :
    ([⟨"A", "Widget", 10, 5⟩] : List Item).all (fun it => !(it.name == "")) = true ∧
    (⟨"o1", "alice", [⟨"A", "Widget", 10, 3⟩], "pending", [], 0, 0⟩ :
        BunOrder).items.all (fun l =>
      (findItem [⟨"A", "Widget", 10, 5⟩] l.id).any
        (fun it => l.name == it.name && l.price == it.price)) = true :=
  ⟨by decide,
    C7_theorem ⟨[⟨"A", "Widget", 10, 5⟩], [], []⟩ "alice" [⟨"A", 3⟩] "o1" 0
      ⟨"o1", "alice", [⟨"A", "Widget", 10, 3⟩], "pending", [], 0, 0⟩
      ⟨[⟨"A", "Widget", 10, 2⟩],
        [("o1", ⟨"o1", "alice", [⟨"A", "Widget", 10, 3⟩], "pending", [], 0, 0⟩)], []⟩
      (by decide) (by decide)⟩

/-- C9 counterexample: the claim fails as stated on the Bun
implementation, which performs no status validation at all: with the
correct admin code and a known order, the out-of-vocabulary status
`"shipped"` is accepted (HTTP 200) and the order is mutated to it,
instead of the required 400 with no mutation. -/
theorem C9_counterexample :
    Bun.updateStatus "adm"
        ⟨[], [("o1", ⟨"o1", "alice", [], "pending", [], 1, 1⟩)], []⟩
        "o1" "adm" (some "shipped") none 5 =
      (.ok ⟨"o1", "alice", [], "shipped", [], 1, 5⟩,
        ⟨[], [("o1", ⟨"o1", "alice", [], "shipped", [], 1, 5⟩)], []⟩,
        [.persistOrders]) := by
  decide

/-- C9 (amended): the Express implementation validates the status (its
allowed set is `{"approved", "denied"}`) and answers any other value —
with correct admin code and a known order — by the 400 `badStatus`
response with no mutation and no side effect; the Bun implementation
performs no status validation and applies any truthy status value
verbatim. -/
theorem C9_theorem (secret : String) (st : ExState) (orderId : String)
    (status note : Option String) (now : Nat) (order : ExOrder)
    (hlk : lookupOrder st.orders orderId = some order)
    (h1 : status ≠ some "approved") (h2 : status ≠ some "denied") :
    Express.updateStatus secret st orderId secret status note now =
      (.badStatus, st, []) := by
  rw [Express.updateStatus, if_neg (fun hne => hne rfl)]
  simp only [hlk]
  rw [if_pos (fun hor => hor.elim h1 h2)]

/-- Witness for C9 on a concrete Express state: status `"shipped"` gets
the 400 with the state unchanged. -/
theorem C9_theorem_witness :
    lookupOrder
        ([("o1", ⟨"o1", "alice", [], 0, "pending", 0,
          [⟨"pending", 0, "Order placed"⟩]⟩)] :
          List (String × ExOrder)) "o1" =
      some ⟨"o1", "alice", [], 0, "pending", 0, [⟨"pending", 0, "Order placed"⟩]⟩ ∧
    (some "shipped" : Option String) ≠ some "approved" ∧
    (some "shipped" : Option String) ≠ some "denied" ∧
    Express.updateStatus "adm"
        ⟨[], [("o1", ⟨"o1", "alice", [], 0, "pending", 0,
          [⟨"pending", 0, "Order placed"⟩]⟩)]⟩
        "o1" "adm" (some "shipped") (some "note") 5 =
      (.badStatus,
        ⟨[], [("o1", ⟨"o1", "alice", [], 0, "pending", 0,
          [⟨"pending", 0, "Order placed"⟩]⟩)]⟩, []) :=
  ⟨by decide, by decide, by decide,
    C9_theorem "adm"
      ⟨[], [("o1", ⟨"o1", "alice", [], 0, "pending", 0,
        [⟨"pending", 0, "Order placed"⟩]⟩)]⟩
      "o1" (some "shipped") (some "note") 5
      ⟨"o1", "alice", [], 0, "pending", 0, [⟨"pending", 0, "Order placed"⟩]⟩
      (by decide) (by decide) (by decide)⟩

/-- C4 counterexample: the claim fails as stated on the Bun
implementation.  A status change (`pending → approved`) with no note on
an order with a registered subscription appends ZERO history entries
(the `notes` array is only appended when a note is given; the claim
requires exactly one), and the notify effect is emitted BEFORE the Order
Store persistence (the claim requires dispatch after the mutation has
been persisted). -/
theorem C4_counterexample :
    Bun.updateStatus "adm"
        ⟨[], [("o1", ⟨"o1", "alice", [], "pending", [], 1, 1⟩)], ["o1"]⟩
        "o1" "adm" (some "approved") none 5 =
      (.ok ⟨"o1", "alice", [], "approved", [], 1, 5⟩,
        ⟨[], [("o1", ⟨"o1", "alice", [], "approved", [], 1, 5⟩)], ["o1"]⟩,
        [.notify "o1" "approved" "", .persistOrders]) := by
  decide

/-- C4 (amended): on the Bun implementation, with the correct admin code
and an existing order: a note-only update (status absent, falsy, or
equal to the current status, with a truthy note) appends exactly one
note entry and never invokes the notify collaborator; a status change
appends a note entry only when a note is given (zero entries otherwise),
invokes the collaborator exactly once when a push subscription exists
for the order (zero times otherwise), and that invocation is emitted
before the Order Store persistence, not after it. -/
theorem C4_theorem (secret : String) (st : BunState) (orderId : String)
    (status note : Option String) (now : Nat) (order : BunOrder)
    (hlk : lookupOrder st.orders orderId = some order) :
    ((truthy status = false ∨ status.getD "" = order.status) →
      truthy note = true →
      ((Bun.updateStatus secret st orderId secret status note now).1.getOk.map
          (·.notes) = some (order.notes ++ [⟨note.getD "", now⟩]) ∧
        notifyCount
          (Bun.updateStatus secret st orderId secret status note now).2.2 = 0)) ∧
    (truthy status = true → status.getD "" ≠ order.status →
      ((Bun.updateStatus secret st orderId secret status note now).1.getOk.map
          (fun o => o.notes.length) =
        some (order.notes.length + (if truthy note = true then 1 else 0)) ∧
      (Bun.updateStatus secret st orderId secret status note now).2.2.getLast? =
        some Effect.persistOrders ∧
      notifyCount
          (Bun.updateStatus secret st orderId secret status note now).2.2.dropLast =
        (if orderId ∈ st.subscriptions then 1 else 0))) := by
  rw [Bun.updateStatus, if_neg (fun hne => hne rfl)]
  simp only [hlk]
  constructor
  · intro hsame hnote
    have hdc : (truthy status && !(status.getD "" == order.status)) = false := by
      rcases hsame with h | h
      · simp [h]
      · simp [h]
    constructor
    · simp [hdc, hnote, PutResult.getOk]
    · simp [hdc, notifyCount]
  · intro htr hne
    have hdc : (truthy status && !(status.getD "" == order.status)) = true := by
      simp [htr, hne]
    refine ⟨?_, ?_, ?_⟩
    · by_cases hnote : truthy note = true
      · simp [hdc, hnote, PutResult.getOk]
      · simp [hdc, hnote, PutResult.getOk]
    · simp [hdc]
    · by_cases hret : status.getD "" = "cancelled" ∧ ¬ order.status = "cancelled"
      · by_cases hsub : orderId ∈ st.subscriptions
        · simp [hdc, htr, hret.1, hret.2, Ne.symm hret.2, hsub, notifyCount]
        · simp [hdc, htr, hret.1, hret.2, Ne.symm hret.2, hsub, notifyCount]
      · by_cases hsub : orderId ∈ st.subscriptions
        · simp [hdc, hret, hsub, notifyCount]
        · simp [hdc, hret, hsub, notifyCount]

/-- Witness for C4 at the spec scenario: approving a pending order with
note `"ready"` and a registered subscription yields exactly one appended
note entry and one notify invocation, emitted before the final
order-store persistence. -/
theorem C4_theorem_witness :
    lookupOrder [("o1", (⟨"o1", "alice", [], "pending", [], 1, 1⟩ : BunOrder))]
        "o1" = some ⟨"o1", "alice", [], "pending", [], 1, 1⟩ ∧
    truthy (some "approved") = true ∧
    (some "approved" : Option String).getD "" ≠ "pending" ∧
    ((Bun.updateStatus "adm"
          ⟨[], [("o1", ⟨"o1", "alice", [], "pending", [], 1, 1⟩)], ["o1"]⟩
          "o1" "adm" (some "approved") (some "ready") 5).1.getOk.map
        (fun o => o.notes.length) = some 1 ∧
      (Bun.updateStatus "adm"
          ⟨[], [("o1", ⟨"o1", "alice", [], "pending", [], 1, 1⟩)], ["o1"]⟩
          "o1" "adm" (some "approved") (some "ready") 5).2.2.getLast? =
        some Effect.persistOrders ∧
      notifyCount
          (Bun.updateStatus "adm"
            ⟨[], [("o1", ⟨"o1", "alice", [], "pending", [], 1, 1⟩)], ["o1"]⟩
            "o1" "adm" (some "approved") (some "ready") 5).2.2.dropLast = 1) :=
  ⟨by decide, by decide, by decide,
    ( C4_theorem "adm"
        ⟨[], [("o1", ⟨"o1", "alice", [], "pending", [], 1, 1⟩)], ["o1"]⟩
        "o1" (some "approved") (some "ready") 5
        ⟨"o1", "alice", [], "pending", [], 1, 1⟩ (by decide)).2
      (by decide) (by decide)⟩

end HackathonStore
